import Mathlib

/-!
Verification development for the WebRTC multi-object-detection frontend.

The definitions below are a shallow embedding of the JavaScript source:

* `percentile`       — DesktopPage.jsx, `percentile(values, p)`
* `MetricsTracker.*` — metrics.js, class `MetricsTracker`
* `ObjectDetector.*` — detection.js, class `ObjectDetector`
* the render/bench loop of DesktopPage.jsx and the phone-side ICE queue of
  JoinPage.jsx are embedded as explicit state-passing step functions.

JavaScript numbers are modelled as rationals (`ℚ`); arrays as `List`;
nullable values as `Option`.
-/

/-- JavaScript `Math.floor` on a rational. -/
def jsFloor (q : ℚ) : ℤ := ⌊q⌋

/-- JavaScript `Math.ceil` on a rational. -/
def jsCeil (q : ℚ) : ℤ := ⌈q⌉

/-- Insert a rational into a list sorted in nondecreasing order.
Helper for `sortAsc`. -/
def insertAsc (x : ℚ) : List ℚ → List ℚ
  | [] => [x]
  | y :: ys => if x ≤ y then x :: y :: ys else y :: insertAsc x ys

/-- Insertion sort in nondecreasing order: the embedding of the JavaScript
`[...values].sort((a, b) => a - b)` (a sorted copy of the array). -/
def sortAsc : List ℚ → List ℚ
  | [] => []
  | x :: xs => insertAsc x (sortAsc xs)

/-- DesktopPage.jsx `percentile(values, p)`: returns 0 on an empty array,
otherwise sorts a copy and linearly interpolates between the two bracketing
ranks at index `(p/100) * (length - 1)`. -/
def percentile (values : List ℚ) (p : ℚ) : ℚ :=
  if values.length = 0 then 0
  else
    let sorted := sortAsc values
    let idx : ℚ := p / 100 * ((sorted.length : ℚ) - 1)
    let lo := jsFloor idx
    let hi := jsCeil idx
    if lo = hi then sorted.getD lo.toNat 0
    else
      let w := idx - (lo : ℚ)
      sorted.getD lo.toNat 0 * (1 - w) + sorted.getD hi.toNat 0 * w

/-- metrics.js `MetricsTracker.calculatePercentile(sortedValues, percentile)`:
same interpolation formula as `percentile`, but the caller passes an already
sorted array and no copy is sorted here. -/
def MetricsTracker.calculatePercentile (sortedValues : List ℚ) (p : ℚ) : ℚ :=
  if sortedValues.length = 0 then 0
  else
    let index : ℚ := p / 100 * ((sortedValues.length : ℚ) - 1)
    let lower := jsFloor index
    let upper := jsCeil index
    if lower = upper then sortedValues.getD lower.toNat 0
    else
      let weight := index - (lower : ℚ)
      sortedValues.getD lower.toNat 0 * (1 - weight)
        + sortedValues.getD upper.toNat 0 * weight

/-- C3: the percentile helper sorts a copy of the window (the unsorted window
`[40, 10, 30, 20]` gives the same answer as `[10, 20, 30, 40]`) and linearly
interpolates between the bracketing ranks: the 50th percentile of
`[10, 20, 30, 40]` is exactly 25 (not a nearest-rank 20 or 30), and the 50th
percentile of the single-element window `[10]` is exactly 10. -/
theorem percentile_interpolates :
    percentile [10, 20, 30, 40] 50 = 25 ∧
    percentile [40, 10, 30, 20] 50 = 25 ∧
    percentile [10] 50 = 10 := by
  have hceil : ⌈(3 : ℚ) / 2⌉ = 2 := by
    rw [Int.ceil_eq_iff]; norm_num
  refine ⟨?_, ?_, ?_⟩ <;>
    norm_num [percentile, sortAsc, insertAsc, jsFloor, jsCeil, hceil,
      show Int.toNat 2 = 2 from rfl]

/-- C10: both percentile helpers return 0 on an empty sample window, for
every percentile rank `p`. -/
theorem percentile_empty_window (p : ℚ) :
    percentile [] p = 0 ∧ MetricsTracker.calculatePercentile [] p = 0 := by
  constructor <;> simp [percentile, MetricsTracker.calculatePercentile]

/-! ## Detection pipeline (detection.js, class `ObjectDetector`) -/

/-- JavaScript `a || b` on numbers (0 is falsy; `NaN` is not modelled since no
source value here is `NaN`). -/
def jsOr (a b : ℚ) : ℚ := if a ≠ 0 then a else b

/-- JavaScript `a || b` on strings (the empty string is falsy). -/
def jsOrStr (a b : String) : String := if a ≠ "" then a else b

/-- A detection/prediction record: `bbox` is `[x, y, width, height]`, plus
score, confidence, class id and class name.  Both raw model predictions and
the standard-format detections of detection.js are carried by this record. -/
structure Prediction where
  bbox : ℚ × ℚ × ℚ × ℚ
  score : ℚ
  confidence : ℚ
  classId : ℤ
  className : String
deriving DecidableEq

/-- The effective score of a prediction, detection.js line 308:
`prediction.score || prediction.confidence || 0`. -/
def predScore (p : Prediction) : ℚ := jsOr p.score (jsOr p.confidence 0)

/-- detection.js lines 315-321: conversion of a filtered prediction to the
standard detection format.  `prediction.bbox || [...]` always takes the first
branch here because every modelled prediction carries a bbox (a JS array is
always truthy), and `classId !== undefined` always holds in the model. -/
def toStandard (p : Prediction) : Prediction :=
  { bbox := p.bbox
    confidence := predScore p
    classId := p.classId
    className := jsOrStr p.className "unknown"
    score := predScore p }

/-- detection.js line 231: convert a standard detection `bbox = [x, y, w, h]`
to the `[y1, x1, y2, x2]` corner format fed to non-maximum suppression. -/
def toCorners (p : Prediction) : ℚ × ℚ × ℚ × ℚ :=
  (p.bbox.2.1, p.bbox.1, p.bbox.2.1 + p.bbox.2.2.2, p.bbox.1 + p.bbox.2.2.1)

/-- Intersection-over-union of two `[y1, x1, y2, x2]` boxes, as computed by
`tf.image.nonMaxSuppressionAsync` (rational division; a zero union gives 0,
which like the `NaN` of the source never exceeds the threshold). -/
def iouCorners (a b : ℚ × ℚ × ℚ × ℚ) : ℚ :=
  let interH := max 0 (min a.2.2.1 b.2.2.1 - max a.1 b.1)
  let interW := max 0 (min a.2.2.2 b.2.2.2 - max a.2.1 b.2.1)
  let inter := interH * interW
  let areaA := (a.2.2.1 - a.1) * (a.2.2.2 - a.2.1)
  let areaB := (b.2.2.1 - b.1) * (b.2.2.2 - b.2.1)
  inter / (areaA + areaB - inter)

/-- Stable insertion of a detection into a list sorted by decreasing score
(ties keep the original order, as the candidate sort of non-maximum
suppression breaks ties by index). -/
def insertByScore (d : Prediction) : List Prediction → List Prediction
  | [] => [d]
  | e :: es => if e.score < d.score then d :: e :: es else e :: insertByScore d es

/-- Sort detections by decreasing score (stable). -/
def sortByScoreDesc : List Prediction → List Prediction
  | [] => []
  | d :: ds => insertByScore d (sortByScoreDesc ds)

/-- Greedy selection loop of non-maximum suppression: walk the candidates in
decreasing-score order and keep a candidate when its IoU with every already
selected box is at most `iouThreshold`, stopping at `maxOutput` selections. -/
def nmsSelect (iouThreshold : ℚ) (maxOutput : Nat) :
    List Prediction → List Prediction → List Prediction
  | [], selected => selected.reverse
  | c :: cs, selected =>
    if maxOutput ≤ selected.length then selected.reverse
    else if selected.all fun s => decide (iouCorners (toCorners s) (toCorners c) ≤ iouThreshold) then
      nmsSelect iouThreshold maxOutput cs (c :: selected)
    else
      nmsSelect iouThreshold maxOutput cs selected

/-- detection.js `applyNMS(detections, iouThreshold = 0.5)`: empty input is
returned unchanged; otherwise `tf.image.nonMaxSuppressionAsync(boxes, scores,
10, iouThreshold, 0.0)` is applied — candidates with score above 0, sorted by
decreasing score, greedily selected up to `maxOutputSize = 10`. -/
def applyNMS (detections : List Prediction) (iouThreshold : ℚ) : List Prediction :=
  if detections.isEmpty then detections
  else
    nmsSelect iouThreshold 10
      (sortByScoreDesc (detections.filter fun d => decide (0 < d.score))) []

/-- The IoU threshold 0.5 that detection.js passes to `applyNMS`, written as
a raw rational so that it evaluates in the kernel. -/
def iouHalf : ℚ := ⟨1, 2, by decide, by decide⟩

/-- detection.js lines 306-341: the post-processing applied to the raw model
predictions of a non-skipped frame — confidence filtering, conversion to the
standard format, non-maximum suppression (IoU threshold 0.5, `personOnly` is
the constant `false`), and truncation to the first 10 entries. -/
def postprocess (confidenceThreshold : ℚ) (predictions : List Prediction) :
    List Prediction :=
  let filteredDetections :=
    predictions.filter fun p => decide (confidenceThreshold ≤ predScore p)
  let detections := filteredDetections.map toStandard
  let nmsDetections := applyNMS detections iouHalf
  let personOnly := false
  let finalDetections :=
    if personOnly then nmsDetections.filter fun d => decide (d.className = "person")
    else nmsDetections
  finalDetections.take 10

/-- Outcome of one invocation of the underlying inference engine on the
current video frame: a list of raw predictions, or a thrown error (the
`catch` branch of detection.js lines 343-346). -/
inductive InferOutcome where
  | ok (preds : List Prediction)
  | err (msg : String)
deriving DecidableEq

/-- Mutable fields of the `ObjectDetector` relevant to `detect`. -/
structure DetectorState where
  isLoaded : Bool
  loadError : Option String
  frameCount : Nat
  detectionInterval : Nat
deriving DecidableEq

/-- Result record of `ObjectDetector.detect`. -/
structure DetectResult where
  detections : List Prediction
  error : Option String
  skipped : Bool
deriving DecidableEq

/-- detection.js `ObjectDetector.detect(videoElement, ..., confidenceThreshold)`:
not-loaded guard, frame-counter increment, every-`detectionInterval`-th frame
skipping, then inference (modelled by `outcome`), post-processing, and the
error catch.  Returns the updated detector state and the result record. -/
def ObjectDetector.detect (st : DetectorState) (outcome : InferOutcome)
    (confidenceThreshold : ℚ) : DetectorState × DetectResult :=
  if ¬ st.isLoaded then
    (st, ⟨[], some (st.loadError.getD "Model not loaded - check console for details"), false⟩)
  else
    let st := { st with frameCount := st.frameCount + 1 }
    if st.frameCount % st.detectionInterval ≠ 0 then
      (st, ⟨[], none, true⟩)
    else
      match outcome with
      | .err msg => (st, ⟨[], some msg, false⟩)
      | .ok predictions => (st, ⟨postprocess confidenceThreshold predictions, none, false⟩)

/-- C8: for every detector state, engine outcome and confidence threshold,
`detect` returns at most 10 detections — the post-processed list is truncated
by `slice(0, 10)` and every other branch returns the empty list. -/
theorem detect_at_most_ten (st : DetectorState) (outcome : InferOutcome)
    (confidenceThreshold : ℚ) :
    ((ObjectDetector.detect st outcome confidenceThreshold).2).detections.length ≤ 10 := by
  cases outcome <;>
    simp only [ObjectDetector.detect] <;>
    split_ifs <;>
    simp [postprocess, List.length_take_le]

/-! ## Live metrics tracker (metrics.js, class `MetricsTracker`) -/

/-- Mutable fields of `MetricsTracker` relevant to `addLatency`. -/
structure MetricsTrackerState where
  maxSamples : Nat
  latencyHistory : List ℚ
  currentMedian : ℚ
  currentP95 : ℚ
deriving DecidableEq

/-- metrics.js `MetricsTracker.addLatency(latencyMs)`: push the sample, drop
the oldest sample (`shift()`) when the window exceeds `maxSamples`, then
recompute the median and p95 from a sorted copy of the window. -/
def MetricsTracker.addLatency (st : MetricsTrackerState) (latencyMs : ℚ) :
    MetricsTrackerState :=
  let pushed := st.latencyHistory ++ [latencyMs]
  let hist := if st.maxSamples < pushed.length then pushed.tail else pushed
  if 0 < hist.length then
    let sorted := sortAsc hist
    { st with latencyHistory := hist
              currentMedian := MetricsTracker.calculatePercentile sorted 50
              currentP95 := MetricsTracker.calculatePercentile sorted 95 }
  else
    { st with latencyHistory := hist }

/-- The tracker as constructed by metrics.js: `maxSamples = 30`, empty
history, zero smoothed values. -/
def initMetricsTracker : MetricsTrackerState := ⟨30, [], 0, 0⟩

/-- The latency window after one `addLatency` call, as a function of the
previous window: append, then drop the head when over `maxSamples`. -/
theorem addLatency_latencyHistory (st : MetricsTrackerState) (x : ℚ) :
    (MetricsTracker.addLatency st x).latencyHistory =
      if st.maxSamples < st.latencyHistory.length + 1 then
        (st.latencyHistory ++ [x]).tail
      else st.latencyHistory ++ [x] := by
  rcases Nat.lt_or_ge st.maxSamples (st.latencyHistory.length + 1) with h | h
  · rw [if_pos h]
    simp only [MetricsTracker.addLatency, List.length_append, List.length_singleton,
      if_pos h]
    split <;> rfl
  · rw [if_neg (Nat.not_lt.mpr h)]
    simp only [MetricsTracker.addLatency, List.length_append, List.length_singleton,
      if_neg (Nat.not_lt.mpr h)]
    split <;> rfl

/-- `addLatency` never changes `maxSamples`. -/
theorem addLatency_maxSamples (st : MetricsTrackerState) (x : ℚ) :
    (MetricsTracker.addLatency st x).maxSamples = st.maxSamples := by
  simp only [MetricsTracker.addLatency]
  split <;> split <;> rfl

/-- Generalized window characterization: folding `addLatency` over a sample
stream, starting from a window of at most 30 samples with `maxSamples = 30`,
leaves exactly the last 30 elements of `prior window ++ stream`. -/
theorem foldl_addLatency_history (samples : List ℚ) :
    ∀ st : MetricsTrackerState, st.maxSamples = 30 →
      st.latencyHistory.length ≤ 30 →
      (samples.foldl MetricsTracker.addLatency st).latencyHistory =
        (st.latencyHistory ++ samples).drop
          (st.latencyHistory.length + samples.length - 30) := by
  induction samples with
  | nil =>
    intro st _ hlen
    have hz : st.latencyHistory.length + List.length ([] : List ℚ) - 30 = 0 := by
      simp only [List.length_nil]
      omega
    rw [List.foldl_nil, List.append_nil, hz, List.drop_zero]
  | cons x xs ih =>
    intro st hmax hlen
    rw [List.foldl_cons]
    have hmax' : (MetricsTracker.addLatency st x).maxSamples = 30 := by
      rw [addLatency_maxSamples]; exact hmax
    rcases Nat.lt_or_ge st.latencyHistory.length 30 with hlt | hge
    · have hh : (MetricsTracker.addLatency st x).latencyHistory =
          st.latencyHistory ++ [x] := by
        rw [addLatency_latencyHistory, if_neg]
        omega
      have hlen' : (MetricsTracker.addLatency st x).latencyHistory.length ≤ 30 := by
        rw [hh, List.length_append, List.length_singleton]
        omega
      rw [ih (MetricsTracker.addLatency st x) hmax' hlen', hh]
      rw [List.append_assoc, List.singleton_append, List.length_append,
        List.length_singleton]
      congr 1
      simp only [List.length_cons]
      omega
    · have h30 : st.latencyHistory.length = 30 := le_antisymm hlen hge
      obtain ⟨a, t, hat⟩ : ∃ a t, st.latencyHistory = a :: t := by
        cases hht : st.latencyHistory with
        | nil => rw [hht] at h30; simp at h30
        | cons a t => exact ⟨a, t, rfl⟩
      have ht : t.length = 29 := by
        have h30c := h30
        rw [hat] at h30c
        simpa using h30c
      have hh : (MetricsTracker.addLatency st x).latencyHistory = t ++ [x] := by
        rw [addLatency_latencyHistory, if_pos (by omega), hat]
        simp
      have hlen' : (MetricsTracker.addLatency st x).latencyHistory.length ≤ 30 := by
        rw [hh, List.length_append, List.length_singleton, ht]
      rw [ih (MetricsTracker.addLatency st x) hmax' hlen', hh, hat]
      have e1 : (t ++ [x]).length + xs.length - 30 = xs.length := by
        rw [List.length_append, List.length_singleton, ht]
        omega
      have e2 : (a :: t).length + (x :: xs).length - 30 = xs.length + 1 := by
        simp only [List.length_cons, ht]
        omega
      rw [e1, e2, List.cons_append, List.drop_succ_cons, List.append_assoc,
        List.singleton_append]

/-- C7 (amended): the live tracker's latency window is exactly the last 30
samples of the append stream — so it never holds more than 30 samples, the
oldest sample is evicted on overflow, and the retained samples are an
unmodified suffix of the appended stream. -/
theorem latency_window_last_thirty (samples : List ℚ) :
    (samples.foldl MetricsTracker.addLatency initMetricsTracker).latencyHistory =
      samples.drop (samples.length - 30) ∧
    (samples.foldl MetricsTracker.addLatency initMetricsTracker).latencyHistory.length
      ≤ 30 := by
  have h := foldl_addLatency_history samples initMetricsTracker rfl
    (by simp [initMetricsTracker])
  constructor
  · rw [h]
    simp [initMetricsTracker]
  · rw [h]
    simp only [initMetricsTracker, List.nil_append, List.length_nil, Nat.zero_add,
      List.length_drop]
    omega

/-! ## Phone-side ICE candidate buffering (JoinPage.jsx) -/

/-- Phone-side WebRTC negotiation state relevant to ICE handling:
whether `setRemoteDescription` has run, the `pendingCandidates` queue, and a
log of the candidates passed to `pc.addIceCandidate`, in call order. -/
structure PhoneIceState where
  remoteDescriptionSet : Bool
  pendingCandidates : List String
  addedToConnection : List String
deriving DecidableEq

/-- JoinPage.jsx `addIce(candidate)`: a null candidate is ignored; with a
remote description set the candidate goes straight to `addIceCandidate`;
otherwise it is pushed onto `pendingCandidates`. -/
def addIce (st : PhoneIceState) (candidate : Option String) : PhoneIceState :=
  match candidate with
  | none => st
  | some c =>
    if st.remoteDescriptionSet then
      { st with addedToConnection := st.addedToConnection ++ [c] }
    else
      { st with pendingCandidates := st.pendingCandidates ++ [c] }

/-- JoinPage.jsx `handleAnswer({sdp})`: set the remote description, then
flush the queued candidates front-first (`shift()`) into `addIceCandidate`. -/
def handleAnswer (st : PhoneIceState) : PhoneIceState :=
  { st with remoteDescriptionSet := true
            addedToConnection := st.addedToConnection ++ st.pendingCandidates
            pendingCandidates := [] }

/-- The phone's initial negotiation state: no remote description, no queued
candidates, nothing passed to the connection. -/
def initPhoneIce : PhoneIceState := ⟨false, [], []⟩

/-- Before the answer arrives, `addIce` only queues: candidates accumulate in
arrival order and none reaches `addIceCandidate`. -/
theorem foldl_addIce_queues (cs : List String) :
    ∀ st : PhoneIceState, st.remoteDescriptionSet = false →
      (cs.map some).foldl addIce st =
        { st with pendingCandidates := st.pendingCandidates ++ cs } := by
  induction cs with
  | nil => intro st _; simp
  | cons c cs ih =>
    intro st hst
    rw [List.map_cons, List.foldl_cons]
    have hstep : addIce st (some c) =
        { st with pendingCandidates := st.pendingCandidates ++ [c] } := by
      simp [addIce, hst]
    rw [hstep, ih _ (by simp [hst])]
    simp

/-- C9: every ICE candidate received before the remote description is set is
buffered (never passed to `addIceCandidate` immediately), and applying the
answer flushes the buffered candidates to `addIceCandidate` in
first-in-first-out order. -/
theorem ice_buffered_then_flushed_fifo (cs : List String) :
    ((cs.map some).foldl addIce initPhoneIce).addedToConnection = [] ∧
    ((cs.map some).foldl addIce initPhoneIce).pendingCandidates = cs ∧
    (handleAnswer ((cs.map some).foldl addIce initPhoneIce)).addedToConnection = cs ∧
    (handleAnswer ((cs.map some).foldl addIce initPhoneIce)).pendingCandidates = [] := by
  rw [foldl_addIce_queues cs initPhoneIce rfl]
  simp [handleAnswer, initPhoneIce]

/-! ## Render/detection loop (DesktopPage.jsx, `render`)

The render loop is an async function rescheduled through
`requestAnimationFrame` at its own end, so at most one instance runs at a
time and the `await detector.detect(...)` on line 219 suspends the tick
until its own detection completes.  Frames decoded from the transport land
in the HTML video element, which retains only the most recently decoded
frame (the single latest-frame slot the specification calls `pending`);
`detect(video, ...)` samples that current frame.  The loop below is the
explicit state-passing form of one such execution: `frameArrival` is the
video element receiving a newer decoded frame, `renderTick` is one complete
run of `render`. -/

/-- The confidence threshold 0.8 that DesktopPage.jsx line 219 passes to
`detector.detect`, written as a raw rational so that it evaluates in the
kernel. -/
def confidence08 : ℚ := ⟨4, 5, by decide, by decide⟩

/-- State touched by the render loop: the video element's current frame
(by producer sequence number), the ghost list of decoded-but-not-yet-
submitted frames, the detector, `lastDetections`, and instrumentation logs —
the sequence numbers whose results were applied (in order), the surfaced
detection errors (`console.warn`/status, in order), the per-tick arguments
of `drawDetections`, the `metricsStoreRef` e2e latency array, and the
per-frame counters. -/
structure LoopState where
  videoFrameSeq : Nat
  unsubmitted : List Nat
  det : DetectorState
  lastDetections : List Prediction
  appliedSeqLog : List Nat
  errorLog : List String
  drawnLog : List (List Prediction)
  e2eLatencyMs : List ℚ
  processedFrames : Nat
  frameIndex : Nat
  scheduledTicks : Nat
deriving DecidableEq

/-- An event of the render loop: a newer decoded frame replacing the video
element's current frame, or one full run of `render` — `hasDims` is
`video.videoWidth && video.videoHeight`, `ready` is `video.readyState >= 2`,
`outcome` is what the inference engine does on the current frame, and the
timestamps feed the e2e latency sample. -/
inductive LoopEvent where
  | frameArrival (seq : Nat)
  | renderTick (hasDims ready : Bool) (outcome : InferOutcome) (captureTs displayTs : ℚ)
deriving DecidableEq

/-- One step of the loop.  A `frameArrival` overwrites the single
latest-frame slot (the previous not-yet-submitted frame, if any, is
discarded).  A `renderTick` follows DesktopPage.jsx lines 201-319: when the
video has dimensions it runs detection (if ready and the model is loaded),
handles the skipped/error/detections cases, then always draws
`lastDetections`, pushes the e2e latency sample and bumps the frame
counters; in every case the tick ends by scheduling the next tick. -/
def loopStep (s : LoopState) : LoopEvent → LoopState
  | .frameArrival seq => { s with videoFrameSeq := seq, unsubmitted := [seq] }
  | .renderTick hasDims ready outcome captureTs displayTs =>
    if hasDims then
      let s1 :=
        if ready ∧ s.det.isLoaded then
          let r := ObjectDetector.detect s.det outcome confidence08
          if r.2.skipped then { s with det := r.1 }
          else
            let s2 := { s with det := r.1, unsubmitted := [] }
            match r.2.error with
            | some e => { s2 with errorLog := s2.errorLog ++ [e] }
            | none =>
              if r.2.detections.isEmpty then s2
              else { s2 with lastDetections := r.2.detections
                             appliedSeqLog := s2.appliedSeqLog ++ [s.videoFrameSeq] }
        else s
      let e2e := max 0 (displayTs - jsOr captureTs displayTs)
      { s1 with drawnLog := s1.drawnLog ++ [s1.lastDetections]
                e2eLatencyMs := s1.e2eLatencyMs ++ [e2e]
                processedFrames := s1.processedFrames + 1
                frameIndex := s1.frameIndex + 1
                scheduledTicks := s1.scheduledTicks + 1 }
    else { s with scheduledTicks := s.scheduledTicks + 1 }

/-- Run the loop over a list of events. -/
def runLoop (s : LoopState) (evs : List LoopEvent) : LoopState :=
  evs.foldl loopStep s

/-- The loop state at page load: no frame yet (sequence 0), detector with
`frameCount = 0` and `detectionInterval = 3`, empty `lastDetections`
and empty logs. -/
def initLoopState (isLoaded : Bool) : LoopState :=
  ⟨0, [], ⟨isLoaded, none, 0, 3⟩, [], [], [], [], [], 0, 0, 0⟩

/-- A render tick leaves the not-yet-submitted slot unchanged or empties it
(submission to the engine clears it); it never adds a frame. -/
theorem loopStep_tick_unsubmitted (s : LoopState) (hasDims ready : Bool)
    (outcome : InferOutcome) (c d : ℚ) :
    (loopStep s (.renderTick hasDims ready outcome c d)).unsubmitted = s.unsubmitted ∨
    (loopStep s (.renderTick hasDims ready outcome c d)).unsubmitted = [] := by
  simp only [loopStep]
  split
  · split
    · split
      · simp
      · split
        · simp
        · split <;> simp
    · simp
  · simp

/-- Running the loop preserves the backlog bound: if at most one decoded
frame is awaiting submission, that stays true after any events. -/
theorem runLoop_unsubmitted_le (evs : List LoopEvent) :
    ∀ s : LoopState, s.unsubmitted.length ≤ 1 →
      (runLoop s evs).unsubmitted.length ≤ 1 := by
  induction evs with
  | nil => intro s h; exact h
  | cons ev evs ih =>
    intro s h
    rw [runLoop, List.foldl_cons]
    have hstep : (loopStep s ev).unsubmitted.length ≤ 1 := by
      cases ev with
      | frameArrival seq => simp [loopStep]
      | renderTick a b o c d =>
        rcases loopStep_tick_unsubmitted s a b o c d with he | he <;> rw [he]
        · exact h
        · simp
    exact ih (loopStep s ev) hstep

/-- C1: over every sequence of frame arrivals and render ticks, at most one
decoded frame is ever pending (not yet submitted), and a newly arriving
frame overwrites the single pending slot — the slot afterwards holds exactly
the new frame, every older pending frame having been discarded. -/
theorem frame_backlog_at_most_one :
    (∀ (isLoaded : Bool) (evs : List LoopEvent),
        (runLoop (initLoopState isLoaded) evs).unsubmitted.length ≤ 1) ∧
    (∀ (isLoaded : Bool) (evs : List LoopEvent) (seq : Nat),
        (runLoop (initLoopState isLoaded)
          (evs ++ [.frameArrival seq])).unsubmitted = [seq]) := by
  constructor
  · intro b evs
    exact runLoop_unsubmitted_le evs _ (by simp [initLoopState])
  · intro b evs seq
    rw [runLoop, List.foldl_append]
    simp [loopStep]

/-- A render tick never changes which frame the video element holds. -/
theorem loopStep_tick_videoFrameSeq (s : LoopState) (hasDims ready : Bool)
    (outcome : InferOutcome) (c d : ℚ) :
    (loopStep s (.renderTick hasDims ready outcome c d)).videoFrameSeq
      = s.videoFrameSeq := by
  simp only [loopStep]
  split
  · split
    · split
      · rfl
      · split
        · rfl
        · split <;> rfl
    · rfl
  · rfl

/-- A render tick either leaves the applied-results log unchanged or appends
the current video frame's sequence number to it. -/
theorem loopStep_tick_appliedSeqLog (s : LoopState) (hasDims ready : Bool)
    (outcome : InferOutcome) (c d : ℚ) :
    (loopStep s (.renderTick hasDims ready outcome c d)).appliedSeqLog
        = s.appliedSeqLog ∨
    (loopStep s (.renderTick hasDims ready outcome c d)).appliedSeqLog
        = s.appliedSeqLog ++ [s.videoFrameSeq] := by
  simp only [loopStep]
  split
  · split
    · split
      · simp
      · split
        · simp
        · split
          · simp
          · simp
    · simp
  · simp

/-- `framesMonotone cur evs = true` states that the frame arrivals in `evs`
carry nondecreasing sequence numbers, starting at or above `cur` (frames are
producer-sequenced, so the transport delivers them in order). -/
def framesMonotone (cur : Nat) : List LoopEvent → Bool
  | [] => true
  | .frameArrival seq :: rest => decide (cur ≤ seq) && framesMonotone seq rest
  | .renderTick _ _ _ _ _ :: rest => framesMonotone cur rest

/-- Invariant run: with in-order frame arrivals, the applied-results log
stays nondecreasing and its last entry never exceeds the current frame. -/
theorem runLoop_applied_chain (evs : List LoopEvent) :
    ∀ s : LoopState, List.Chain' (· ≤ ·) s.appliedSeqLog →
      (∀ a ∈ s.appliedSeqLog.getLast?, a ≤ s.videoFrameSeq) →
      framesMonotone s.videoFrameSeq evs = true →
      List.Chain' (· ≤ ·) (runLoop s evs).appliedSeqLog := by
  induction evs with
  | nil => intro s hc _ _; exact hc
  | cons ev evs ih =>
    intro s hc hlast hm
    rw [runLoop, List.foldl_cons]
    cases ev with
    | frameArrival seq =>
      simp only [framesMonotone, Bool.and_eq_true, decide_eq_true_eq] at hm
      exact ih _ hc (fun a ha => le_trans (hlast a ha) hm.1) hm.2
    | renderTick a b o c d =>
      simp only [framesMonotone] at hm
      have hv := loopStep_tick_videoFrameSeq s a b o c d
      rcases loopStep_tick_appliedSeqLog s a b o c d with he | he
      · refine ih _ (by rw [he]; exact hc) ?_ (by rw [hv]; exact hm)
        intro x hx
        rw [he] at hx
        rw [hv]
        exact hlast x hx
      · refine ih _ ?_ ?_ (by rw [hv]; exact hm)
        · rw [he]
          refine List.Chain'.append hc (List.chain'_singleton _) ?_
          intro x hx y hy
          simp only [List.head?_cons, Option.mem_def, Option.some.injEq] at hy
          rw [← hy]
          exact hlast x hx
        · intro x hx
          rw [he, List.getLast?_concat] at hx
          simp only [Option.mem_def, Option.some.injEq] at hx
          rw [hv]
          exact le_of_eq hx.symm

/-- C2: the displayed annotation state never regresses to an older frame —
with in-order frame arrivals, the sequence numbers whose detection results
get applied to `lastDetections` form a nondecreasing chain.  (The `await` on
the detect call serializes completions, so a result for an older frame can
never arrive after a newer frame's result was applied.) -/
theorem applied_results_never_regress (evs : List LoopEvent)
    (hm : framesMonotone 0 evs = true) :
    List.Chain' (· ≤ ·) (runLoop (initLoopState true) evs).appliedSeqLog :=
  runLoop_applied_chain evs (initLoopState true) (by simp [initLoopState])
    (by simp [initLoopState]) hm

/-- A concrete raw prediction with confidence 0.9 (above the 0.8 threshold),
written with raw rationals so that it evaluates in the kernel. -/
def predPerson : Prediction :=
  { bbox := (0, 0, 10, 10)
    score := ⟨9, 10, by decide, by decide⟩
    confidence := ⟨9, 10, by decide, by decide⟩
    classId := 0
    className := "person" }

/-- Witness for C2: a run with in-order arrivals (frame 1, two warm-up ticks,
frame 2, a tick whose detection succeeds) has a nondecreasing applied log. -/
theorem applied_results_never_regress_witness :
    List.Chain' (· ≤ ·)
      (runLoop (initLoopState true)
        [.frameArrival 1,
         .renderTick true true (.ok [predPerson]) 0 0,
         .renderTick true true (.ok [predPerson]) 0 0,
         .frameArrival 2,
         .renderTick true true (.ok [predPerson]) 0 0]).appliedSeqLog :=
  applied_results_never_regress _ (by decide)

/-- A loop state whose next render tick actually reaches the inference
engine: model loaded and `frameCount = 2`, so the tick's increment makes it
a multiple of the detection interval 3. -/
def tickReadyState : LoopState :=
  { initLoopState true with det := ⟨true, none, 2, 3⟩ }

/-- C5 counterexample: on a tick whose detection runs and succeeds, the
detections drawn by that same tick are the detections returned by that same
tick's engine call — the tick's drawing ran only after the `await
detector.detect(...)` resolved, so annotation submission is awaited
synchronously inside the tick, contradicting the fire-and-continue claim
(under which this tick could only have drawn the pre-tick `lastDetections`,
here the empty list). -/
theorem render_tick_awaits_detection_cex :
    (loopStep tickReadyState
        (.renderTick true true (.ok [predPerson]) 0 0)).drawnLog
      = [(loopStep tickReadyState
          (.renderTick true true (.ok [predPerson]) 0 0)).lastDetections] ∧
    (loopStep tickReadyState
        (.renderTick true true (.ok [predPerson]) 0 0)).lastDetections
      ≠ tickReadyState.lastDetections := by
  decide

/-- C5 (amended): the annotation call is awaited inside the render tick — on
any tick whose detection runs and returns a nonempty result, the tick draws
exactly that same tick's post-processed result, and the next tick is still
scheduled after the await resolves (the loop suspends but is not abandoned). -/
theorem render_tick_draws_same_tick_result (s : LoopState)
    (preds : List Prediction) (captureTs displayTs : ℚ)
    (hl : s.det.isLoaded = true)
    (hrun : (s.det.frameCount + 1) % s.det.detectionInterval = 0)
    (hne : postprocess confidence08 preds ≠ []) :
    (loopStep s (.renderTick true true (.ok preds) captureTs displayTs)).lastDetections
      = postprocess confidence08 preds ∧
    (loopStep s (.renderTick true true (.ok preds) captureTs displayTs)).drawnLog
      = s.drawnLog ++ [postprocess confidence08 preds] ∧
    (loopStep s (.renderTick true true (.ok preds) captureTs displayTs)).scheduledTicks
      = s.scheduledTicks + 1 := by
  have hdet : ObjectDetector.detect s.det (.ok preds) confidence08 =
      ({ s.det with frameCount := s.det.frameCount + 1 },
        ⟨postprocess confidence08 preds, none, false⟩) := by
    simp [ObjectDetector.detect, hl, hrun]
  have hne' : (postprocess confidence08 preds).isEmpty = false := by
    simpa [List.isEmpty_iff] using hne
  simp [loopStep, hdet, hl, hne']

/-- Witness for the amended C5 at a concrete ready state and prediction. -/
theorem render_tick_draws_same_tick_result_witness :
    (loopStep tickReadyState
        (.renderTick true true (.ok [predPerson]) 0 0)).lastDetections
      = postprocess confidence08 [predPerson] ∧
    (loopStep tickReadyState
        (.renderTick true true (.ok [predPerson]) 0 0)).drawnLog
      = tickReadyState.drawnLog ++ [postprocess confidence08 [predPerson]] ∧
    (loopStep tickReadyState
        (.renderTick true true (.ok [predPerson]) 0 0)).scheduledTicks
      = tickReadyState.scheduledTicks + 1 :=
  render_tick_draws_same_tick_result tickReadyState [predPerson] 0 0
    (by decide) (by decide) (by decide)

/-- C6: when the annotation engine fails on a frame (the detect call reaches
inference and the engine throws), the tick leaves `lastDetections` unchanged,
appends the error message to the observability log (`console.warn` + status),
still draws the previous detections, and still schedules the next tick — the
render loop keeps running. -/
theorem engine_error_keeps_last_result (s : LoopState) (msg : String)
    (captureTs displayTs : ℚ)
    (hl : s.det.isLoaded = true)
    (hrun : (s.det.frameCount + 1) % s.det.detectionInterval = 0) :
    (loopStep s (.renderTick true true (.err msg) captureTs displayTs)).lastDetections
      = s.lastDetections ∧
    (loopStep s (.renderTick true true (.err msg) captureTs displayTs)).errorLog
      = s.errorLog ++ [msg] ∧
    (loopStep s (.renderTick true true (.err msg) captureTs displayTs)).drawnLog
      = s.drawnLog ++ [s.lastDetections] ∧
    (loopStep s (.renderTick true true (.err msg) captureTs displayTs)).scheduledTicks
      = s.scheduledTicks + 1 := by
  have hdet : ObjectDetector.detect s.det (.err msg) confidence08 =
      ({ s.det with frameCount := s.det.frameCount + 1 },
        ⟨[], some msg, false⟩) := by
    simp [ObjectDetector.detect, hl, hrun]
  simp [loopStep, hdet, hl]

/-- Witness for C6 at a concrete ready state and error message. -/
theorem engine_error_keeps_last_result_witness :
    (loopStep tickReadyState
        (.renderTick true true (.err "engine failure") 0 0)).lastDetections
      = tickReadyState.lastDetections ∧
    (loopStep tickReadyState
        (.renderTick true true (.err "engine failure") 0 0)).errorLog
      = tickReadyState.errorLog ++ ["engine failure"] ∧
    (loopStep tickReadyState
        (.renderTick true true (.err "engine failure") 0 0)).drawnLog
      = tickReadyState.drawnLog ++ [tickReadyState.lastDetections] ∧
    (loopStep tickReadyState
        (.renderTick true true (.err "engine failure") 0 0)).scheduledTicks
      = tickReadyState.scheduledTicks + 1 :=
  engine_error_keeps_last_result tickReadyState "engine failure" 0 0
    (by decide) (by decide)

/-- C7 counterexample: the per-frame e2e latency store of DesktopPage.jsx
(`metricsStoreRef.current.e2eLatencyMs`) is only ever pushed to — after 31
rendered ticks it holds 31 samples, exceeding the 30-sample capacity of the
live tracker's window that the claim asserts for every latency sample. -/
theorem e2e_store_exceeds_thirty :
    (runLoop (initLoopState false)
        (List.replicate 31 (.renderTick true true (.ok []) 0 0))).e2eLatencyMs.length
      = 31 ∧
    ¬ ((runLoop (initLoopState false)
        (List.replicate 31 (.renderTick true true (.ok []) 0 0))).e2eLatencyMs.length
      ≤ 30) := by
  decide

/-! ## Benchmark runner (DesktopPage.jsx, `startBench`) -/

/-- The in-memory metrics store `metricsStoreRef.current` together with the
`frameIndexRef`/`processedFramesRef` counters that `startBench` resets. -/
structure BenchMetricsStore where
  fps : List ℚ
  latencyMs : List ℚ
  e2eLatencyMs : List ℚ
  detectionCountPerFrame : List Nat
  detectionsByFrame : List (Nat × List (String × Nat))
  frameIndex : Nat
  processedFrames : Nat
deriving DecidableEq

/-- DesktopPage.jsx lines 551-557: the reset performed at the start of
`startBench` — every sample array is cleared and both frame counters are
zeroed. -/
def startBenchReset (store : BenchMetricsStore) : BenchMetricsStore :=
  { store with fps := [], latencyMs := [], e2eLatencyMs := []
               detectionCountPerFrame := [], detectionsByFrame := []
               frameIndex := 0, processedFrames := 0 }

/-- DesktopPage.jsx lines 559-560: the benchmark deadline is computed at the
call instant — `endAt = performance.now() + durationSec * 1000`. -/
def benchEndAt (callTs durationSec : ℚ) : ℚ := callTs + durationSec * 1000

/-- DesktopPage.jsx line 567: a bench tick finishes the run when
`performance.now() >= endAt`. -/
def benchTickDone (now endAt : ℚ) : Bool := decide (endAt ≤ now)

/-- The `benchTick` recursion over the future animation-frame timestamps:
the run finishes at the first tick whose timestamp reaches `endAt`. -/
def benchRun (endAt : ℚ) : List ℚ → Option ℚ
  | [] => none
  | t :: ts => if endAt ≤ t then some t else benchRun endAt ts

/-- DesktopPage.jsx line 575: the summary's processed FPS is
`Math.round(processedFrames / durationSec)`. -/
def benchFpsProcessed (processedFrames : Nat) (durationSec : ℚ) : ℤ :=
  round ((processedFrames : ℚ) / durationSec)

/-- Follows the spec's words, for comparison with `benchEndAt` (claim C4):
a benchmark window "measured from first tick, not call time", i.e. the
deadline computed from the timestamp of the first tick after the call. -/
def benchEndAtClaimed (firstTickTs durationSec : ℚ) : ℚ :=
  firstTickTs + durationSec * 1000

/-- C4 counterexample: with `startBench(30)` called at t = 0 ms but the first
bench tick only at t = 1000 ms, the code's deadline (`benchEndAt`) is already
reached at the tick at t = 30000 ms, while a window measured from the first
tick (`benchEndAtClaimed`, the claim's reading) would still be running; and
with 31 frames observed the summary reports `Math.round(31 / 30) = 1`
frames per second, which is not the exact quotient 31/30. -/
theorem startBench_timing_cex :
    benchTickDone 30000 (benchEndAt 0 30) = true ∧
    benchTickDone 30000 (benchEndAtClaimed 1000 30) = false ∧
    benchFpsProcessed 31 30 = 1 ∧ ¬ ((31 : ℚ) / 30 = ((1 : ℤ) : ℚ)) := by
  refine ⟨?_, ?_, ?_, ?_⟩
  · norm_num [benchTickDone, benchEndAt]
  · norm_num [benchTickDone, benchEndAtClaimed]
  · norm_num [benchFpsProcessed, round_eq]
  · norm_num

/-- C4 (amended): `startBench` first clears every sample window and counter;
the run then lasts `durationSec` seconds of wall-clock time measured from
the call instant — it ends at the first animation-frame tick whose timestamp
reaches `callTs + durationSec * 1000` — and the emitted summary's processed
FPS is `Math.round(framesObserved / durationSec)`. -/
theorem startBench_resets_and_times_from_call (store : BenchMetricsStore)
    (callTs durationSec : ℚ) (ts : List ℚ) (frames : Nat) :
    startBenchReset store =
      { store with fps := [], latencyMs := [], e2eLatencyMs := []
                   detectionCountPerFrame := [], detectionsByFrame := []
                   frameIndex := 0, processedFrames := 0 } ∧
    benchRun (benchEndAt callTs durationSec) ts
      = ts.find? (fun t => decide (callTs + durationSec * 1000 ≤ t)) ∧
    benchFpsProcessed frames durationSec = round ((frames : ℚ) / durationSec) := by
  refine ⟨rfl, ?_, rfl⟩
  induction ts with
  | nil => rfl
  | cons t ts ih =>
    rw [List.find?_cons]
    by_cases h : benchEndAt callTs durationSec ≤ t
    · rw [benchRun, if_pos h]
      rw [show (decide (callTs + durationSec * 1000 ≤ t)) = true by
        simpa [benchEndAt] using h]
    · rw [benchRun, if_neg h, ih]
      rw [show (decide (callTs + durationSec * 1000 ≤ t)) = false by
        simpa [benchEndAt] using h]
